import Mathlib

/-!
Verification of the `maraboupy` query-construction layer
(`src/maraboupy/MarabouNetwork.py`) against its natural-language
specification.

The Python class `MarabouNetwork` is shallowly embedded: the mutable object
becomes the `Network` structure, every method becomes a pure Lean function
(methods that mutate `self` take and return a `Network`), Python numeric
values become `ℚ`, Python exceptions become `Except MarabouError`, and the
external solver (`MarabouCore`) is modelled as an oracle parameter.  The
compiled `InputQuery` object, which lives behind the `MarabouCore` C++
boundary, is modelled by the list of API calls made on it (`IPQ`).

Verbose printing in the source is presentation only (per the class contract)
and is not modelled; in particular the `print` blocks' dictionary accesses
are ignored.
-/

deriving instance DecidableEq for Except

namespace Marabou

/-- Variables are non-negative integer identifiers. -/
abbrev Var := Nat

/-- Equation relation kinds, mirroring `MarabouCore.Equation` types
(`EQ`, `LE`, `GE`). -/
inductive EqnType
  | eq
  | le
  | ge
deriving DecidableEq

/-- Modelled from the spec: `MarabouUtils.Equation` (the `maraboupy` file
defining it is not part of the sources at hand).  Per the spec's data model,
an equation is a linear relation holding an ordered list of
(coefficient, variable) addends together with a scalar and a relation kind. -/
structure Equation where
  equationType : EqnType
  addendList : List (ℚ × Var)
  scalar : ℚ
deriving DecidableEq

/-- Modelled from the spec: `MarabouUtils.Equation.isEqualTo` (source file not
at hand).  Per the spec, two equations are equal iff they have the same
relation kind, the same scalar, and the same multiset of addends
(order-insensitive). -/
def Equation.isEqualTo (e1 e2 : Equation) : Bool :=
  decide (e1.equationType = e2.equationType)
    && decide (e1.scalar = e2.scalar)
    && decide ((e1.addendList : Multiset (ℚ × Var)) = (e2.addendList : Multiset (ℚ × Var)))

/-- A numpy array of variable identifiers, in row-major (C) order:
`shape` is the dimension list, `data` the flattened entries. -/
structure VArray where
  shape : List Nat
  data : List Var
deriving DecidableEq

/-- `ndarray.flatten()` on a variable array: the row-major data. -/
def VArray.flatten (a : VArray) : List Var := a.data

/-- A numpy array of rational values (stand-in for the float arrays of the
source; only storage and exact arithmetic on stored values is modelled). -/
structure QArray where
  shape : List Nat
  data : List ℚ
deriving DecidableEq

/-- Python exceptions that the embedded methods can raise. -/
inductive MarabouError
  | notImplementedError
  | runtimeError
  | assertionError
  | indexError
  | typeError
  | nameError
  | keyError
  | valueError
deriving DecidableEq

/-- Python `dict` lookup `d[k]` (as an `Option`), for a dict represented as
an insertion-ordered association list with unique keys. -/
def dictLookup {α : Type} (d : List (Nat × α)) (k : Nat) : Option α :=
  (d.find? (fun p => decide (p.1 = k))).map (fun p => p.2)

/-- Python `dict` assignment `d[k] = v`: overwrites the value in place when
the key is present (keeping insertion order), otherwise appends a new entry. -/
def dictInsert {α : Type} (d : List (Nat × α)) (k : Nat) (v : α) : List (Nat × α) :=
  if d.any (fun p => decide (p.1 = k)) then
    d.map (fun p => if p.1 = k then (k, v) else p)
  else
    d ++ [(k, v)]

/-- Python `dict` equality `d1 == d2`: same keys and same values, regardless
of insertion order (keys are unique in a Python dict). -/
def dictBeq {α : Type} [DecidableEq α] (d1 d2 : List (Nat × α)) : Bool :=
  d1.all (fun p => decide (dictLookup d2 p.1 = some p.2))
    && d2.all (fun p => decide (dictLookup d1 p.1 = some p.2))

/-- The state of a `MarabouNetwork` object: one field per attribute set up by
`clear()` in the source. -/
structure Network where
  numVars : Nat
  equList : List Equation
  additionalEquList : List Equation
  reluList : List (Var × Var)
  leakyReluList : List (Var × Var × ℚ)
  sigmoidList : List (Var × Var)
  maxList : List (Finset Var × Var)
  softmaxList : List (List Var × List Var)
  bilinearList : List (Var × Var × Var)
  absList : List (Var × Var)
  signList : List (Var × Var)
  disjunctionList : List (List (List Equation))
  lowerBounds : List (Var × ℚ)
  upperBounds : List (Var × ℚ)
  inputVars : List VArray
  outputVars : List VArray
deriving DecidableEq

/-- `clear()`: the empty network every `MarabouNetwork` starts as. -/
def Network.clear : Network :=
  { numVars := 0
    equList := []
    additionalEquList := []
    reluList := []
    leakyReluList := []
    sigmoidList := []
    maxList := []
    softmaxList := []
    bilinearList := []
    absList := []
    signList := []
    disjunctionList := []
    lowerBounds := []
    upperBounds := []
    inputVars := []
    outputVars := [] }

/-- `clearProperty()`: clears the two bound maps and the property-equation
list, touching nothing else. -/
def clearProperty (net : Network) : Network :=
  { net with lowerBounds := [], upperBounds := [], additionalEquList := [] }

/-- `addEquation(x, isProperty)`: appends to the property or core equation
list according to the flag. -/
def addEquation (net : Network) (x : Equation) (isProperty : Bool) : Network :=
  if isProperty then
    { net with additionalEquList := net.additionalEquList ++ [x] }
  else
    { net with equList := net.equList ++ [x] }

/-- `setLowerBound(x, v)`: `self.lowerBounds[x] = v`. -/
def setLowerBound (net : Network) (x : Var) (v : ℚ) : Network :=
  { net with lowerBounds := dictInsert net.lowerBounds x v }

/-- `setUpperBound(x, v)`: `self.upperBounds[x] = v`. -/
def setUpperBound (net : Network) (x : Var) (v : ℚ) : Network :=
  { net with upperBounds := dictInsert net.upperBounds x v }

/-- `addMaxConstraint(elements, v)`: appends `(elements, v)` to `maxList`;
`elements` is a Python set, modelled as a `Finset`. -/
def addMaxConstraint (net : Network) (elements : Finset Var) (v : Var) : Network :=
  { net with maxList := net.maxList ++ [(elements, v)] }

/-! ### The compiled query

`MarabouCore.InputQuery` lives behind the C++ boundary; we model it by the
sequence of API calls `getMarabouQuery` performs on it. -/

/-- One call on the external `InputQuery` object / `MarabouCore` module. -/
inductive IPQCmd
  | setNumVars (n : Nat)
  | markInput (v : Var) (i : Nat)
  | markOutput (v : Var) (i : Nat)
  | addEqn (t : EqnType) (addends : List (ℚ × Var)) (scalar : ℚ)
  | addRelu (b f : Var)
  | addLeakyRelu (b f : Var) (slope : ℚ)
  | addBilinear (a b c : Var)
  | addSigmoid (b f : Var)
  | addMax (elements : Finset Var) (v : Var)
  | addSoftmax (inputs outputs : List Var)
  | addAbs (b f : Var)
  | addSign (b f : Var)
  | addDisjunction (disjuncts : List (List Equation))
  | setLower (v : Var) (x : ℚ)
  | setUpper (v : Var) (x : ℚ)
deriving DecidableEq

/-- A compiled query: the trace of calls issued on the `InputQuery`. -/
abbrev IPQ := List IPQCmd

/-- The `markInputVariable` calls: groups flattened in declaration order with
a running slot counter (no range validation is performed for marks). -/
def markInputCmds (groups : List VArray) : List IPQCmd :=
  ((groups.map VArray.flatten).flatten.enum).map (fun p => IPQCmd.markInput p.2 p.1)

/-- The `markOutputVariable` calls, analogous to `markInputCmds`. -/
def markOutputCmds (groups : List VArray) : List IPQCmd :=
  ((groups.map VArray.flatten).flatten.enum).map (fun p => IPQCmd.markOutput p.2 p.1)

/-- The shape shared by every translation loop of `getMarabouQuery`: walk
the items in order; for each item first run its `assert`s (`check`), aborting
with `AssertionError` when one fails, then issue the `MarabouCore` call
(`emit`). -/
def compileLoop {β : Type} (check : β → Prop) [DecidablePred check] (emit : β → IPQCmd) :
    List β → Except MarabouError (List IPQCmd)
  | [] => .ok []
  | x :: rest =>
    if check x then
      match compileLoop check emit rest with
      | .error err => .error err
      | .ok cmds => .ok (emit x :: cmds)
    else .error .assertionError

/-- The `for e in self.equList` (resp. `additionalEquList`) loop: each
addend's variable is asserted in range (`assert v < self.numVars`), then the
equation is added. -/
def compileEquations (nv : Nat) (l : List Equation) : Except MarabouError (List IPQCmd) :=
  compileLoop (fun e => ∀ p ∈ e.addendList, p.2 < nv)
    (fun e => IPQCmd.addEqn e.equationType e.addendList e.scalar) l

/-- The `for r in self.reluList` loop: `assert r[1] < numVars and r[0] < numVars`. -/
def compileRelus (nv : Nat) (l : List (Var × Var)) : Except MarabouError (List IPQCmd) :=
  compileLoop (fun r => r.2 < nv ∧ r.1 < nv) (fun r => IPQCmd.addRelu r.1 r.2) l

/-- The `for r in self.leakyReluList` loop: the variable range assert
followed by `assert(r[2] > 0 and r[2] < 1)` on the slope. -/
def compileLeakyRelus (nv : Nat) (l : List (Var × Var × ℚ)) : Except MarabouError (List IPQCmd) :=
  compileLoop (fun r => (r.2.1 < nv ∧ r.1 < nv) ∧ (0 < r.2.2 ∧ r.2.2 < 1))
    (fun r => IPQCmd.addLeakyRelu r.1 r.2.1 r.2.2) l

/-- The `for r in self.bilinearList` loop: all three variables asserted. -/
def compileBilinears (nv : Nat) (l : List (Var × Var × Var)) : Except MarabouError (List IPQCmd) :=
  compileLoop (fun r => r.2.2 < nv ∧ r.2.1 < nv ∧ r.1 < nv)
    (fun r => IPQCmd.addBilinear r.1 r.2.1 r.2.2) l

/-- The `for r in self.sigmoidList` loop: both variables asserted. -/
def compileSigmoids (nv : Nat) (l : List (Var × Var)) : Except MarabouError (List IPQCmd) :=
  compileLoop (fun r => r.2 < nv ∧ r.1 < nv) (fun r => IPQCmd.addSigmoid r.1 r.2) l

/-- The `for m in self.maxList` loop: the output and every element of the
input set asserted. -/
def compileMaxes (nv : Nat) (l : List (Finset Var × Var)) : Except MarabouError (List IPQCmd) :=
  compileLoop (fun m => m.2 < nv ∧ ∀ e ∈ m.1, e < nv) (fun m => IPQCmd.addMax m.1 m.2) l

/-- The `for m in self.softmaxList` loop: every output then every input
variable asserted. -/
def compileSoftmaxes (nv : Nat) (l : List (List Var × List Var)) :
    Except MarabouError (List IPQCmd) :=
  compileLoop (fun m => (∀ e ∈ m.2, e < nv) ∧ (∀ e ∈ m.1, e < nv))
    (fun m => IPQCmd.addSoftmax m.1 m.2) l

/-- The `for b, f in self.absList` loop: note the source performs NO range
assertion here, unlike every other constraint kind. -/
def compileAbses (l : List (Var × Var)) : List IPQCmd :=
  l.map (fun r => IPQCmd.addAbs r.1 r.2)

/-- The `for b, f in self.signList` loop: again no range assertion in the
source. -/
def compileSigns (l : List (Var × Var)) : List IPQCmd :=
  l.map (fun r => IPQCmd.addSign r.1 r.2)

/-- The `for disjunction in self.disjunctionList` loop: every addend of
every equation of every disjunct asserted in range, then the disjunction is
added. -/
def compileDisjunctions (nv : Nat) (l : List (List (List Equation))) :
    Except MarabouError (List IPQCmd) :=
  compileLoop (fun d => ∀ dj ∈ d, ∀ e ∈ dj, ∀ p ∈ e.addendList, p.2 < nv)
    (fun d => IPQCmd.addDisjunction d) l

/-- The bound-copy loops: every key asserted below `numVars`; `mk` is the
`setLowerBound` / `setUpperBound` call on the query. -/
def compileBounds (mk : Var → ℚ → IPQCmd) (nv : Nat) (l : List (Var × ℚ)) :
    Except MarabouError (List IPQCmd) :=
  compileLoop (fun b => b.1 < nv) (fun b => mk b.1 b.2) l

/-- `getMarabouQuery()`: converts the network into a solver `InputQuery`,
performing the source's `assert` validations along the way.  A failing
assertion aborts the whole conversion (no query value is produced). -/
def getMarabouQuery (net : Network) : Except MarabouError IPQ :=
  match compileEquations net.numVars net.equList with
  | .error err => .error err
  | .ok eqCmds =>
  match compileEquations net.numVars net.additionalEquList with
  | .error err => .error err
  | .ok addCmds =>
  match compileRelus net.numVars net.reluList with
  | .error err => .error err
  | .ok reluCmds =>
  match compileLeakyRelus net.numVars net.leakyReluList with
  | .error err => .error err
  | .ok leakyCmds =>
  match compileBilinears net.numVars net.bilinearList with
  | .error err => .error err
  | .ok bilinearCmds =>
  match compileSigmoids net.numVars net.sigmoidList with
  | .error err => .error err
  | .ok sigmoidCmds =>
  match compileMaxes net.numVars net.maxList with
  | .error err => .error err
  | .ok maxCmds =>
  match compileSoftmaxes net.numVars net.softmaxList with
  | .error err => .error err
  | .ok softmaxCmds =>
  match compileDisjunctions net.numVars net.disjunctionList with
  | .error err => .error err
  | .ok disjCmds =>
  match compileBounds IPQCmd.setLower net.numVars net.lowerBounds with
  | .error err => .error err
  | .ok lowerCmds =>
  match compileBounds IPQCmd.setUpper net.numVars net.upperBounds with
  | .error err => .error err
  | .ok upperCmds =>
    .ok ([IPQCmd.setNumVars net.numVars]
      ++ markInputCmds net.inputVars
      ++ markOutputCmds net.outputVars
      ++ eqCmds ++ addCmds
      ++ reluCmds ++ leakyCmds ++ bilinearCmds ++ sigmoidCmds
      ++ maxCmds ++ softmaxCmds
      ++ compileAbses net.absList ++ compileSigns net.signList
      ++ disjCmds ++ lowerCmds ++ upperCmds)

/-- `getMarabouQuery` as a method call with the object state threaded
through: the method only reads `self`, so the post-state is the pre-state. -/
def getMarabouQueryS (net : Network) : Except MarabouError (IPQ × Network) :=
  match getMarabouQuery net with
  | .error err => .error err
  | .ok q => .ok (q, net)

/-- `isEqualTo(network)`: the source's structural comparison.  Note, as in
the source: `leakyReluList`, `softmaxList`, `bilinearList` and
`additionalEquList` are never compared; equations and variable arrays are
compared positionally over `zip`; and the output-variable loop compares
`outputVars1` with itself (the source's own variable choice). -/
def isEqualTo (self network : Network) : Bool :=
  let equivalence := true
  let equivalence :=
    if self.numVars ≠ network.numVars
        ∨ self.reluList ≠ network.reluList
        ∨ self.sigmoidList ≠ network.sigmoidList
        ∨ self.maxList ≠ network.maxList
        ∨ self.absList ≠ network.absList
        ∨ self.signList ≠ network.signList
        ∨ self.disjunctionList ≠ network.disjunctionList
        ∨ ¬ dictBeq self.lowerBounds network.lowerBounds
        ∨ ¬ dictBeq self.upperBounds network.upperBounds
    then false else equivalence
  let equivalence :=
    (self.equList.zip network.equList).foldl
      (fun acc p => if ¬ p.1.isEqualTo p.2 then false else acc) equivalence
  let equivalence :=
    (self.inputVars.zip network.inputVars).foldl
      (fun acc p =>
        if (p.1.flatten.zip p.2.flatten).any (fun q => decide (q.1 ≠ q.2)) then false else acc)
      equivalence
  let equivalence :=
    (self.outputVars.zip network.outputVars).foldl
      (fun acc p =>
        if (p.1.flatten.zip p.1.flatten).any (fun q => decide (q.1 ≠ q.2)) then false else acc)
      equivalence
  equivalence

/-! ### The external solver -/

/-- The observable outcome of one `MarabouCore.solve` call: the satisfying
assignment dictionary (empty iff no satisfying assignment was found) and the
statistics object's `hasTimedOut()` flag.  The exit-code string is not used
by any of the modelled control flow and is omitted. -/
structure SolveResult where
  vals : List (Var × ℚ)
  timedOut : Bool
deriving DecidableEq

/-! ### Robustness search (`evaluateLocalRobustness`) -/

/-- Numpy `a[0]`: the first slice along the leading axis.  Raises
`IndexError` when the array is 0-dimensional or its leading axis is empty. -/
def VArray.firstSlice (a : VArray) : Except MarabouError VArray :=
  match a.shape with
  | [] => .error .indexError
  | d :: rest => if d = 0 then .error .indexError else .ok ⟨rest, a.data.take rest.prod⟩

/-- The input-pinning loop of `evaluateLocalRobustness`: for each flattened
input variable, set its lower bound to `value - epsilon` and its upper bound
to `value + epsilon` on the model itself.  (Source indexes
`flattenInputVars[i]` for `i` up to the input's size; the two lists have
equal length whenever the earlier shape check passed on well-formed arrays,
which the paired `zip` reflects.) -/
def pinBounds (net : Network) (vars : List Var) (vals : List ℚ) (epsilon : ℚ) : Network :=
  (vars.zip vals).foldl
    (fun n p => setUpperBound (setLowerBound n p.1 (p.2 - epsilon)) p.1 (p.2 + epsilon))
    net

/-- The untargeted candidate loop of `evaluateLocalRobustness`: iterate the
output indices, skip `originalClass`, add a two-element Max constraint per
candidate, solve, and break on timeout (no class reported) or on a non-empty
assignment (candidate reported).  Returns the final network, the list of
(candidate, solver result) pairs for the queries actually issued, and
`maxClass`. -/
def untargetedLoop (oracle : Network → SolveResult) (outputStartIndex originalClass : Nat) :
    Network → List Nat → Network × List (Nat × SolveResult) × Option Nat
  | net, [] => (net, [], none)
  | net, idx :: rest =>
    if idx = originalClass then
      untargetedLoop oracle outputStartIndex originalClass net rest
    else
      let net1 := addMaxConstraint net
        {outputStartIndex + idx, outputStartIndex + originalClass} (outputStartIndex + idx)
      let res := oracle net1
      if res.timedOut then (net1, [(idx, res)], none)
      else if res.vals.isEmpty then
        let r := untargetedLoop oracle outputStartIndex originalClass net1 rest
        (r.1, (idx, res) :: r.2.1, r.2.2)
      else (net1, [(idx, res)], some idx)

/-- What `evaluateLocalRobustness` returns (plus bookkeeping): `vals` and
`timedOut` from the last issued query, the reported `maxClass`, the final
state of the mutated network, and the trace of issued queries (candidate or
target class paired with the solver result). -/
structure RobustnessOutcome where
  vals : List (Var × ℚ)
  timedOut : Bool
  maxClass : Option Nat
  finalNet : Network
  trace : List (Nat × SolveResult)
deriving DecidableEq

/-- `evaluateLocalRobustness(input, epsilon, originalClass, verbose, options,
targetClass)`.  The solver (`self.solve`, i.e. `MarabouCore.solve` on the
freshly compiled query) is abstracted by `oracle`; `self.inputVars` is always
a Python list here (see `clear`), so the `np.ndarray` branch of the source's
type dispatch is unreachable and not modelled.  When the candidate loop
issues no query at all, the source's `return [vals, stats, maxClass]` hits
unbound locals, a `NameError`. -/
def evaluateLocalRobustness (oracle : Network → SolveResult) (net : Network)
    (input : QArray) (epsilon : ℚ) (originalClass : Nat) (verbose : Bool)
    (targetClass : Option Nat) : Except MarabouError RobustnessOutcome :=
  if net.inputVars.length ≠ 1 then .error .notImplementedError
  else
    match (net.inputVars.headD ⟨[], []⟩).firstSlice with
    | .error err => .error err
    | .ok inputVars =>
      if inputVars.shape ≠ input.shape then .error .runtimeError
      else if net.outputVars.length ≠ 1 then .error .notImplementedError
      else
        let net1 := pinBounds net inputVars.flatten input.data epsilon
        match (net1.outputVars.headD ⟨[], []⟩).firstSlice with
        | .error err => .error err
        | .ok outSlice =>
          match outSlice.data.head? with
          | none => .error .indexError
          | some outputStartIndex =>
            match targetClass with
            | none =>
              let outputLayerSize := outSlice.shape.headD 0
              let r := untargetedLoop oracle outputStartIndex originalClass net1
                (List.range outputLayerSize)
              match r.2.1.getLast? with
              | none => .error .nameError
              | some e => .ok ⟨e.2.vals, e.2.timedOut, r.2.2, r.1, r.2.1⟩
            | some tc =>
              let net2 := addMaxConstraint net1 outSlice.data.toFinset (outputStartIndex + tc)
              let res := oracle net2
              let mc := if verbose ∧ res.timedOut = false ∧ ¬ res.vals.isEmpty
                then some tc else none
              .ok ⟨res.vals, res.timedOut, mc, net2, [(tc, res)]⟩

/-! ### Evaluation bridge (`evaluateWithMarabou`, `evaluate`, `findError`) -/

/-- The input dictionary of `evaluateWithMarabou`: flattened input variables
of all groups zipped with the flattened input values (Python `zip` stops at
the shorter sequence), written into a dict in order. -/
def inputDictOf (net : Network) (inputValues : List QArray) : List (Var × ℚ) :=
  (((net.inputVars.map VArray.flatten).flatten).zip
      ((inputValues.map QArray.data).flatten)).foldl
    (fun d p => dictInsert d p.1 p.2) []

/-- The pinning calls made on the compiled query: for each dict entry, a
lower-bound and an upper-bound call with the same value. -/
def pinCmds (d : List (Var × ℚ)) : List IPQCmd :=
  (d.map (fun p => [IPQCmd.setLower p.1 p.2, IPQCmd.setUpper p.1 p.2])).flatten

/-- The query actually submitted by `evaluateWithMarabou`: the freshly
compiled query followed by the input-pinning bound calls.  The
`np.concatenate` calls on the way to the input dict raise `ValueError` when
given an empty list of arrays. -/
def pinnedQuery (net : Network) (inputValues : List QArray) : Except MarabouError IPQ :=
  if net.inputVars.isEmpty then .error .valueError
  else if inputValues.isEmpty then .error .valueError
  else
    match getMarabouQuery net with
    | .error err => .error err
    | .ok base => .ok (base ++ pinCmds (inputDictOf net inputValues))

/-- Reading one output group back from the solver assignment: every variable
of the group is looked up (`KeyError` if absent) and the values reshaped to
the group's shape. -/
def readOutputs (vals : List (Var × ℚ)) (ov : VArray) : Except MarabouError QArray :=
  match ov.data.mapM
      (fun v => match dictLookup vals v with
        | some q => Except.ok q
        | none => Except.error MarabouError.keyError) with
  | .error err => .error err
  | .ok qs => .ok ⟨ov.shape, qs⟩

/-- `evaluateWithMarabou(inputValues)`: pin the inputs on a fresh compiled
query, solve, return `None` exactly on an empty assignment, otherwise read
the output groups back.  `oracle` abstracts `MarabouCore.solve`. -/
def evaluateWithMarabou (oracle : IPQ → SolveResult) (net : Network)
    (inputValues : List QArray) : Except MarabouError (Option (List QArray)) :=
  match pinnedQuery net inputValues with
  | .error err => .error err
  | .ok ipq =>
    let res := oracle ipq
    if res.vals.isEmpty then .ok none
    else
      match net.outputVars.mapM (readOutputs res.vals) with
      | .error err => .error err
      | .ok outs => .ok (some outs)

/-- `evaluateWithMarabou` as a method call with the object state threaded
through: the method writes bounds only on the compiled query, never on
`self`, so the post-state is the pre-state. -/
def evaluateWithMarabouS (oracle : IPQ → SolveResult) (net : Network)
    (inputValues : List QArray) : Except MarabouError (Option (List QArray) × Network) :=
  match evaluateWithMarabou oracle net inputValues with
  | .error err => .error err
  | .ok r => .ok (r, net)

/-- `evaluate(inputValues, useMarabou)`: dispatches to the Marabou bridge or
to the reference evaluator `evaluateWithoutMarabou` (an abstract method of
the class, implemented by subclasses outside this file; modelled by the
total function `refEval` returning the output groups). -/
def evaluate (oracle : IPQ → SolveResult) (refEval : List QArray → List QArray)
    (net : Network) (inputValues : List QArray) (useMarabou : Bool) :
    Except MarabouError (Option (List QArray)) :=
  if useMarabou then evaluateWithMarabou oracle net inputValues
  else .ok (some (refEval inputValues))

/-- Numpy `np.abs(a - b)` for arrays of one output group; modelled for
same-shape operands (the only case the cross-check produces on well-formed
models), elementwise `|a - b|`. -/
def absDiff (a b : QArray) : Except MarabouError QArray :=
  if a.shape = b.shape then
    .ok ⟨a.shape, (a.data.zip b.data).map (fun p => |p.1 - p.2|)⟩
  else .error .valueError

/-- The per-group difference loop of `findError`. -/
def absDiffList (ms ns : List QArray) : Except MarabouError (List QArray) :=
  (ms.zip ns).mapM (fun p => absDiff p.1 p.2)

/-- `findError(inputValues)`: evaluate with the solver and with the
reference evaluator, `assert` both report the same number of output groups,
and return the per-group elementwise absolute differences.  When the solver
evaluation returns `None` (UNSAT), the source's `len(outMar)` raises
`TypeError`. -/
def findError (oracle : IPQ → SolveResult) (refEval : List QArray → List QArray)
    (net : Network) (inputValues : List QArray) : Except MarabouError (List QArray) :=
  match evaluate oracle refEval net inputValues true with
  | .error err => .error err
  | .ok outMar =>
    match evaluate oracle refEval net inputValues false with
    | .error err => .error err
    | .ok outNotMar =>
      match outMar, outNotMar with
      | some ms, some ns =>
        if ms.length = ns.length then absDiffList ms ns
        else .error .assertionError
      | _, _ => .error .typeError

/-! ## Supporting lemmas -/

lemma find_map_replace {α : Type} (k : Nat) (v : α) :
    ∀ (d : List (Nat × α)), d.any (fun p => decide (p.1 = k)) = true →
      (d.map (fun p => if p.1 = k then (k, v) else p)).find? (fun p => decide (p.1 = k))
        = some (k, v) := by
  intro d
  induction d with
  | nil => intro h; simp at h
  | cons p rest ih =>
    intro h
    by_cases hp : p.1 = k
    · simp [List.find?, hp]
    · have hrest : rest.any (fun p => decide (p.1 = k)) = true := by
        simp only [List.any_cons, Bool.or_eq_true, decide_eq_true_eq] at h
        rcases h with h | h
        · exact absurd h hp
        · exact h
      have hred := ih hrest
      simp only [List.map_cons, List.find?, if_neg hp, decide_eq_false hp]
      exact hred

lemma find_append_not_found {α : Type} (k : Nat) (v : α) :
    ∀ (d : List (Nat × α)), (∀ p ∈ d, ¬ p.1 = k) →
      (d ++ [(k, v)]).find? (fun p => decide (p.1 = k)) = some (k, v) := by
  intro d
  induction d with
  | nil => simp [List.find?]
  | cons q rest ih =>
    intro hall
    have hq : ¬ q.1 = k := hall q (List.mem_cons_self q rest)
    simp only [List.cons_append, List.find?, decide_eq_false hq]
    exact ih (fun p hp => hall p (List.mem_cons_of_mem q hp))

lemma not_key_of_not_any {α : Type} {d : List (Nat × α)} {k : Nat}
    (h : ¬ d.any (fun p => decide (p.1 = k)) = true) : ∀ p ∈ d, ¬ p.1 = k := by
  intro p hp hpk
  exact h (List.any_eq_true.mpr ⟨p, hp, by simpa using hpk⟩)

lemma dictInsert_find {α : Type} (d : List (Nat × α)) (k : Nat) (v : α) :
    (dictInsert d k v).find? (fun p => decide (p.1 = k)) = some (k, v) := by
  unfold dictInsert
  by_cases h : d.any (fun p => decide (p.1 = k)) = true
  · rw [if_pos h]
    exact find_map_replace k v d h
  · rw [if_neg h]
    exact find_append_not_found k v d (not_key_of_not_any h)

lemma dictInsert_lookup {α : Type} (d : List (Nat × α)) (k : Nat) (v : α) :
    dictLookup (dictInsert d k v) k = some v := by
  unfold dictLookup
  rw [dictInsert_find]
  rfl

lemma map_fst_dictInsert_of_any {α : Type} (d : List (Nat × α)) (k : Nat) (v : α)
    (h : d.any (fun p => decide (p.1 = k)) = true) :
    (dictInsert d k v).map Prod.fst = d.map Prod.fst := by
  unfold dictInsert
  rw [if_pos h, List.map_map]
  apply List.map_congr_left
  intro p _
  by_cases hp : p.1 = k
  · simp [hp]
  · simp [hp]

lemma dictInsert_keys_nodup {α : Type} (d : List (Nat × α)) (k : Nat) (v : α)
    (h : (d.map Prod.fst).Nodup) : ((dictInsert d k v).map Prod.fst).Nodup := by
  by_cases hany : d.any (fun p => decide (p.1 = k)) = true
  · rw [map_fst_dictInsert_of_any d k v hany]
    exact h
  · unfold dictInsert
    rw [if_neg hany, List.map_append]
    have hnk : k ∉ d.map Prod.fst := by
      intro hk
      rcases List.mem_map.mp hk with ⟨p, hp, hpk⟩
      exact not_key_of_not_any hany p hp hpk
    simp [List.nodup_append, h, hnk]

lemma countP_eq_one_of_nodup_keys {α : Type} {k : Nat} :
    ∀ (d : List (Nat × α)), (d.map Prod.fst).Nodup →
      d.any (fun p => decide (p.1 = k)) = true →
      d.countP (fun p => decide (p.1 = k)) = 1 := by
  intro d
  induction d with
  | nil => intro _ h; simp at h
  | cons p rest ih =>
    intro hnod hany
    rw [List.map_cons, List.nodup_cons] at hnod
    by_cases hp : p.1 = k
    · have hzero : rest.countP (fun q => decide (q.1 = k)) = 0 := by
        rw [List.countP_eq_zero]
        intro q hq hqk
        rw [decide_eq_true_eq] at hqk
        exact hnod.1 (by rw [hp, ← hqk]; exact List.mem_map_of_mem Prod.fst hq)
      rw [List.countP_cons, hzero]
      simp [hp]
    · have hrest : rest.any (fun q => decide (q.1 = k)) = true := by
        simp only [List.any_cons, Bool.or_eq_true, decide_eq_true_eq] at hany
        rcases hany with hany | hany
        · exact absurd hany hp
        · exact hany
      rw [List.countP_cons]
      simp [hp, ih hnod.2 hrest]

lemma dictInsert_countP {α : Type} (d : List (Nat × α)) (k : Nat) (v : α)
    (h : (d.map Prod.fst).Nodup) :
    (dictInsert d k v).countP (fun p => decide (p.1 = k)) = 1 := by
  have hfind := dictInsert_find d k v
  exact countP_eq_one_of_nodup_keys (dictInsert d k v) (dictInsert_keys_nodup d k v h)
    (List.any_eq_true.mpr
      ⟨(k, v), List.mem_of_find?_eq_some hfind, by simp⟩)

/-! ### Normal form of the query compiler -/

lemma compileLoop_eq {β : Type} (check : β → Prop) [DecidablePred check]
    (emit : β → IPQCmd) (l : List β) :
    compileLoop check emit l
      = if ∀ x ∈ l, check x then .ok (l.map emit) else .error .assertionError := by
  induction l with
  | nil => simp [compileLoop]
  | cons x rest ih =>
    rw [compileLoop, ih]
    by_cases hx : check x
    · rw [if_pos hx]
      by_cases hrest : ∀ y ∈ rest, check y
      · rw [if_pos hrest, if_pos (List.forall_mem_cons.mpr ⟨hx, hrest⟩)]
        rfl
      · rw [if_neg hrest, if_neg (fun hall => hrest (List.forall_mem_cons.mp hall).2)]
    · rw [if_neg hx, if_neg (fun hall => hx (List.forall_mem_cons.mp hall).1)]

/-- All the validations `getMarabouQuery` performs, as one proposition. -/
abbrev AllChecks (net : Network) : Prop :=
  (∀ e ∈ net.equList, ∀ p ∈ e.addendList, p.2 < net.numVars) ∧
  (∀ e ∈ net.additionalEquList, ∀ p ∈ e.addendList, p.2 < net.numVars) ∧
  (∀ r ∈ net.reluList, r.2 < net.numVars ∧ r.1 < net.numVars) ∧
  (∀ r ∈ net.leakyReluList,
    (r.2.1 < net.numVars ∧ r.1 < net.numVars) ∧ (0 < r.2.2 ∧ r.2.2 < 1)) ∧
  (∀ r ∈ net.bilinearList, r.2.2 < net.numVars ∧ r.2.1 < net.numVars ∧ r.1 < net.numVars) ∧
  (∀ r ∈ net.sigmoidList, r.2 < net.numVars ∧ r.1 < net.numVars) ∧
  (∀ m ∈ net.maxList, m.2 < net.numVars ∧ ∀ e ∈ m.1, e < net.numVars) ∧
  (∀ m ∈ net.softmaxList, (∀ e ∈ m.2, e < net.numVars) ∧ (∀ e ∈ m.1, e < net.numVars)) ∧
  (∀ d ∈ net.disjunctionList, ∀ dj ∈ d, ∀ e ∈ dj, ∀ p ∈ e.addendList, p.2 < net.numVars) ∧
  (∀ b ∈ net.lowerBounds, b.1 < net.numVars) ∧
  (∀ b ∈ net.upperBounds, b.1 < net.numVars)

/-- The compiled query produced when every validation passes. -/
def compiledOf (net : Network) : IPQ :=
  [IPQCmd.setNumVars net.numVars]
    ++ markInputCmds net.inputVars
    ++ markOutputCmds net.outputVars
    ++ net.equList.map (fun e => IPQCmd.addEqn e.equationType e.addendList e.scalar)
    ++ net.additionalEquList.map (fun e => IPQCmd.addEqn e.equationType e.addendList e.scalar)
    ++ net.reluList.map (fun r => IPQCmd.addRelu r.1 r.2)
    ++ net.leakyReluList.map (fun r => IPQCmd.addLeakyRelu r.1 r.2.1 r.2.2)
    ++ net.bilinearList.map (fun r => IPQCmd.addBilinear r.1 r.2.1 r.2.2)
    ++ net.sigmoidList.map (fun r => IPQCmd.addSigmoid r.1 r.2)
    ++ net.maxList.map (fun m => IPQCmd.addMax m.1 m.2)
    ++ net.softmaxList.map (fun m => IPQCmd.addSoftmax m.1 m.2)
    ++ compileAbses net.absList
    ++ compileSigns net.signList
    ++ net.disjunctionList.map (fun d => IPQCmd.addDisjunction d)
    ++ net.lowerBounds.map (fun b => IPQCmd.setLower b.1 b.2)
    ++ net.upperBounds.map (fun b => IPQCmd.setUpper b.1 b.2)

lemma getMarabouQuery_norm (net : Network) :
    getMarabouQuery net
      = if AllChecks net then .ok (compiledOf net) else .error .assertionError := by
  unfold getMarabouQuery compileEquations compileRelus compileLeakyRelus compileBilinears
    compileSigmoids compileMaxes compileSoftmaxes compileDisjunctions compileBounds
  simp only [compileLoop_eq]
  by_cases h1 : ∀ e ∈ net.equList, ∀ p ∈ e.addendList, p.2 < net.numVars
  case neg =>
    rw [if_neg h1, if_neg (fun hall : AllChecks net => h1 hall.1)]
  case pos =>
  rw [if_pos h1]
  by_cases h2 : ∀ e ∈ net.additionalEquList, ∀ p ∈ e.addendList, p.2 < net.numVars
  case neg =>
    rw [if_neg h2, if_neg (fun hall : AllChecks net => h2 hall.2.1)]
  case pos =>
  rw [if_pos h2]
  by_cases h3 : ∀ r ∈ net.reluList, r.2 < net.numVars ∧ r.1 < net.numVars
  case neg =>
    rw [if_neg h3, if_neg (fun hall : AllChecks net => h3 hall.2.2.1)]
  case pos =>
  rw [if_pos h3]
  by_cases h4 : ∀ r ∈ net.leakyReluList,
      (r.2.1 < net.numVars ∧ r.1 < net.numVars) ∧ (0 < r.2.2 ∧ r.2.2 < 1)
  case neg =>
    rw [if_neg h4, if_neg (fun hall : AllChecks net => h4 hall.2.2.2.1)]
  case pos =>
  rw [if_pos h4]
  by_cases h5 : ∀ r ∈ net.bilinearList,
      r.2.2 < net.numVars ∧ r.2.1 < net.numVars ∧ r.1 < net.numVars
  case neg =>
    rw [if_neg h5, if_neg (fun hall : AllChecks net => h5 hall.2.2.2.2.1)]
  case pos =>
  rw [if_pos h5]
  by_cases h6 : ∀ r ∈ net.sigmoidList, r.2 < net.numVars ∧ r.1 < net.numVars
  case neg =>
    rw [if_neg h6, if_neg (fun hall : AllChecks net => h6 hall.2.2.2.2.2.1)]
  case pos =>
  rw [if_pos h6]
  by_cases h7 : ∀ m ∈ net.maxList, m.2 < net.numVars ∧ ∀ e ∈ m.1, e < net.numVars
  case neg =>
    rw [if_neg h7, if_neg (fun hall : AllChecks net => h7 hall.2.2.2.2.2.2.1)]
  case pos =>
  rw [if_pos h7]
  by_cases h8 : ∀ m ∈ net.softmaxList,
      (∀ e ∈ m.2, e < net.numVars) ∧ (∀ e ∈ m.1, e < net.numVars)
  case neg =>
    rw [if_neg h8, if_neg (fun hall : AllChecks net => h8 hall.2.2.2.2.2.2.2.1)]
  case pos =>
  rw [if_pos h8]
  by_cases h9 : ∀ d ∈ net.disjunctionList, ∀ dj ∈ d, ∀ e ∈ dj, ∀ p ∈ e.addendList,
      p.2 < net.numVars
  case neg =>
    rw [if_neg h9, if_neg (fun hall : AllChecks net => h9 hall.2.2.2.2.2.2.2.2.1)]
  case pos =>
  rw [if_pos h9]
  by_cases h10 : ∀ b ∈ net.lowerBounds, b.1 < net.numVars
  case neg =>
    rw [if_neg h10, if_neg (fun hall : AllChecks net => h10 hall.2.2.2.2.2.2.2.2.2.1)]
  case pos =>
  rw [if_pos h10]
  by_cases h11 : ∀ b ∈ net.upperBounds, b.1 < net.numVars
  case neg =>
    rw [if_neg h11, if_neg (fun hall : AllChecks net => h11 hall.2.2.2.2.2.2.2.2.2.2)]
  case pos =>
  rw [if_pos h11, if_pos ⟨h1, h2, h3, h4, h5, h6, h7, h8, h9, h10, h11⟩]
  rfl

/-! ### The untargeted robustness loop, characterized -/

lemma pinBounds_outputVars (vars : List Var) (vals : List ℚ) (epsilon : ℚ) :
    ∀ (net : Network), (pinBounds net vars vals epsilon).outputVars = net.outputVars := by
  unfold pinBounds
  generalize vars.zip vals = l
  induction l with
  | nil => intro net; rfl
  | cons p rest ih =>
    intro net
    rw [List.foldl_cons]
    exact ih _

lemma untargetedLoop_cons_skip (oracle : Network → SolveResult) (s oc : Nat)
    (net : Network) (idx : Nat) (rest : List Nat) (h : idx = oc) :
    untargetedLoop oracle s oc net (idx :: rest) = untargetedLoop oracle s oc net rest := by
  rw [untargetedLoop, if_pos h]

lemma untargetedLoop_cons_timeout (oracle : Network → SolveResult) (s oc : Nat)
    (net : Network) (idx : Nat) (rest : List Nat) (h : ¬ idx = oc)
    (ht : (oracle (addMaxConstraint net {s + idx, s + oc} (s + idx))).timedOut = true) :
    (untargetedLoop oracle s oc net (idx :: rest)).2.1
        = [(idx, oracle (addMaxConstraint net {s + idx, s + oc} (s + idx)))]
      ∧ (untargetedLoop oracle s oc net (idx :: rest)).2.2 = none := by
  refine ⟨?_, ?_⟩ <;> rw [untargetedLoop, if_neg h] <;> simp [ht]

lemma untargetedLoop_cons_sat (oracle : Network → SolveResult) (s oc : Nat)
    (net : Network) (idx : Nat) (rest : List Nat) (h : ¬ idx = oc)
    (ht : (oracle (addMaxConstraint net {s + idx, s + oc} (s + idx))).timedOut = false)
    (hv : (oracle (addMaxConstraint net {s + idx, s + oc} (s + idx))).vals.isEmpty = false) :
    (untargetedLoop oracle s oc net (idx :: rest)).2.1
        = [(idx, oracle (addMaxConstraint net {s + idx, s + oc} (s + idx)))]
      ∧ (untargetedLoop oracle s oc net (idx :: rest)).2.2 = some idx := by
  refine ⟨?_, ?_⟩ <;> rw [untargetedLoop, if_neg h] <;> simp [ht, hv]

lemma untargetedLoop_cons_unsat (oracle : Network → SolveResult) (s oc : Nat)
    (net : Network) (idx : Nat) (rest : List Nat) (h : ¬ idx = oc)
    (ht : (oracle (addMaxConstraint net {s + idx, s + oc} (s + idx))).timedOut = false)
    (hv : (oracle (addMaxConstraint net {s + idx, s + oc} (s + idx))).vals.isEmpty = true) :
    (untargetedLoop oracle s oc net (idx :: rest)).2.1
        = (idx, oracle (addMaxConstraint net {s + idx, s + oc} (s + idx)))
          :: (untargetedLoop oracle s oc (addMaxConstraint net {s + idx, s + oc} (s + idx))
                rest).2.1
      ∧ (untargetedLoop oracle s oc net (idx :: rest)).2.2
        = (untargetedLoop oracle s oc (addMaxConstraint net {s + idx, s + oc} (s + idx))
            rest).2.2 := by
  refine ⟨?_, ?_⟩ <;> rw [untargetedLoop, if_neg h] <;> simp [ht, hv]

/-- What one untargeted search run looks like, relative to the candidate
list `cands`, the query trace `tr` and the reported class `mc`: the
candidates actually solved form a prefix of `cands`; every query before the
last came back unsatisfiable without timeout; a timed-out last query reports
no class; a satisfiable last query reports that candidate; and an
unsatisfiable last query means the whole candidate list was exhausted with
no class reported. -/
def LoopSpec (cands : List Nat) (tr : List (Nat × SolveResult)) (mc : Option Nat) : Prop :=
  tr.map Prod.fst = cands.take tr.length ∧
  (∀ e ∈ tr.dropLast, e.2.timedOut = false ∧ e.2.vals = []) ∧
  (tr = [] → mc = none ∧ cands = []) ∧
  (∀ e, tr.getLast? = some e →
    (e.2.timedOut = true → mc = none) ∧
    (e.2.timedOut = false → e.2.vals ≠ [] → mc = some e.1) ∧
    (e.2.timedOut = false → e.2.vals = [] → mc = none ∧ tr.length = cands.length))

lemma untargetedLoop_spec (oracle : Network → SolveResult) (s oc : Nat) :
    ∀ (L : List Nat) (net : Network),
      LoopSpec (L.filter (fun i => decide (i ≠ oc)))
        (untargetedLoop oracle s oc net L).2.1
        (untargetedLoop oracle s oc net L).2.2 := by
  intro L
  induction L with
  | nil =>
    intro net
    refine ⟨rfl, ?_, ?_, ?_⟩
    · intro e he
      simp [untargetedLoop] at he
    · intro _
      exact ⟨rfl, rfl⟩
    · intro e he
      simp [untargetedLoop] at he
  | cons idx rest ih =>
    intro net
    by_cases hidx : idx = oc
    · have hfilter : (idx :: rest).filter (fun i => decide (i ≠ oc))
          = rest.filter (fun i => decide (i ≠ oc)) := by
        simp [List.filter_cons, hidx]
      rw [hfilter, untargetedLoop_cons_skip oracle s oc net idx rest hidx]
      exact ih net
    · have hfilter : (idx :: rest).filter (fun i => decide (i ≠ oc))
          = idx :: rest.filter (fun i => decide (i ≠ oc)) := by
        simp [List.filter_cons, hidx]
      rw [hfilter]
      by_cases ht : (oracle (addMaxConstraint net {s + idx, s + oc} (s + idx))).timedOut = true
      · obtain ⟨e1, e2⟩ := untargetedLoop_cons_timeout oracle s oc net idx rest hidx ht
        rw [e1, e2]
        refine ⟨by simp, ?_, ?_, ?_⟩
        · intro e he
          simp at he
        · intro habs
          cases habs
        · intro e he
          simp at he
          subst he
          exact ⟨fun _ => rfl,
            fun hf _ => absurd (hf.symm.trans ht) Bool.false_ne_true,
            fun hf _ => absurd (hf.symm.trans ht) Bool.false_ne_true⟩
      · rw [Bool.not_eq_true] at ht
        by_cases hv : (oracle (addMaxConstraint net {s + idx, s + oc} (s + idx))).vals.isEmpty
          = true
        · -- unsatisfiable: the loop continues on the grown network
          obtain ⟨e1, e2⟩ := untargetedLoop_cons_unsat oracle s oc net idx rest hidx ht hv
          rw [e1, e2]
          obtain ⟨ih1, ih2, ih3, ih4⟩ := ih (addMaxConstraint net {s + idx, s + oc} (s + idx))
          have hvnil : (oracle (addMaxConstraint net {s + idx, s + oc} (s + idx))).vals = [] :=
            List.isEmpty_iff.mp hv
          refine ⟨?_, ?_, ?_, ?_⟩
          · simp only [List.map_cons, List.length_cons, List.take_succ_cons]
            rw [ih1]
          · intro e he
            cases htr :
                (untargetedLoop oracle s oc (addMaxConstraint net {s + idx, s + oc} (s + idx))
                  rest).2.1 with
            | nil =>
              rw [htr] at he
              simp at he
            | cons y t =>
              rw [htr, List.dropLast_cons₂] at he
              rcases List.mem_cons.mp he with he | he
              · subst he
                exact ⟨ht, hvnil⟩
              · exact ih2 e (by rw [htr]; exact he)
          · intro habs
            exact (List.cons_ne_nil _ _ habs).elim
          · intro e he
            cases htr :
                (untargetedLoop oracle s oc (addMaxConstraint net {s + idx, s + oc} (s + idx))
                  rest).2.1 with
            | nil =>
              rw [htr] at he
              simp at he
              obtain ⟨hmc, hcands⟩ := ih3 htr
              subst he
              refine ⟨fun _ => hmc,
                fun _ hnv => absurd hvnil hnv,
                fun _ _ => ⟨hmc, ?_⟩⟩
              rw [hcands]
              rfl
            | cons y t =>
              rw [htr, List.getLast?_cons_cons] at he
              have hres4 := ih4 e (by rw [htr]; exact he)
              rw [htr] at hres4
              refine ⟨hres4.1, hres4.2.1, fun hf hv2 => ⟨(hres4.2.2 hf hv2).1, ?_⟩⟩
              have hlen := (hres4.2.2 hf hv2).2
              simp only [List.length_cons] at hlen ⊢
              omega
        · -- satisfiable: the loop stops and reports this candidate
          rw [Bool.not_eq_true] at hv
          obtain ⟨e1, e2⟩ := untargetedLoop_cons_sat oracle s oc net idx rest hidx ht hv
          rw [e1, e2]
          refine ⟨by simp, ?_, ?_, ?_⟩
          · intro e he
            simp at he
          · intro habs
            cases habs
          · intro e he
            simp at he
            subst he
            refine ⟨fun htt => absurd (ht.symm.trans htt) Bool.false_ne_true,
              fun _ _ => rfl,
              fun _ hvals => ?_⟩
            rw [hvals] at hv
            simp at hv

/-! ## Claims -/

/-- Some equation addend (core or property), some operand of a ReLU, leaky
ReLU, bilinear, sigmoid, max or softmax constraint, some addend inside a
disjunction, or some bound-map key references a variable `≥ numVars`.  (Abs
and Sign operands are deliberately NOT listed: the source checks no range
for them.) -/
def HasOutOfRangeRef (net : Network) : Prop :=
  (∃ e ∈ net.equList, ∃ p ∈ e.addendList, net.numVars ≤ p.2) ∨
  (∃ e ∈ net.additionalEquList, ∃ p ∈ e.addendList, net.numVars ≤ p.2) ∨
  (∃ r ∈ net.reluList, net.numVars ≤ r.1 ∨ net.numVars ≤ r.2) ∨
  (∃ r ∈ net.leakyReluList, net.numVars ≤ r.1 ∨ net.numVars ≤ r.2.1) ∨
  (∃ r ∈ net.bilinearList, net.numVars ≤ r.1 ∨ net.numVars ≤ r.2.1 ∨ net.numVars ≤ r.2.2) ∨
  (∃ r ∈ net.sigmoidList, net.numVars ≤ r.1 ∨ net.numVars ≤ r.2) ∨
  (∃ m ∈ net.maxList, net.numVars ≤ m.2 ∨ ∃ e ∈ m.1, net.numVars ≤ e) ∨
  (∃ m ∈ net.softmaxList, (∃ e ∈ m.1, net.numVars ≤ e) ∨ (∃ e ∈ m.2, net.numVars ≤ e)) ∨
  (∃ d ∈ net.disjunctionList, ∃ dj ∈ d, ∃ e ∈ dj, ∃ p ∈ e.addendList, net.numVars ≤ p.2) ∨
  (∃ b ∈ net.lowerBounds, net.numVars ≤ b.1) ∨
  (∃ b ∈ net.upperBounds, net.numVars ≤ b.1)

/-- Counterexample to claim C1: a 1-variable model whose only constraint is
an Abs constraint whose output operand is variable 5, out of range; contrary
to the claim, `getMarabouQuery` does not fail — it produces a complete query
containing the out-of-range Abs call. -/
theorem getMarabouQuery_abs_unchecked :
    ¬ ((5 : Var) < ({ Network.clear with numVars := 1, absList := [(0, 5)] } : Network).numVars) ∧
    getMarabouQuery { Network.clear with numVars := 1, absList := [(0, 5)] }
      = .ok [IPQCmd.setNumVars 1, IPQCmd.addAbs 0 5] := by
  exact ⟨by decide, by decide⟩

/-- Claim C1 as amended: compilation fails with the validation
(`AssertionError`) — producing no query — whenever any equation addend, any
constraint operand of the checked kinds (ReLU, leaky ReLU, bilinear, sigmoid,
max, softmax, disjunction), or any bound-map key references a variable
`≥ numVars`; Abs and Sign operands are exempt, as the source translates them
without any range check. -/
theorem getMarabouQuery_validation (net : Network) (h : HasOutOfRangeRef net) :
    getMarabouQuery net = .error .assertionError := by
  rw [getMarabouQuery_norm]
  apply if_neg
  intro hall
  obtain ⟨c1, c2, c3, c4, c5, c6, c7, c8, c9, c10, c11⟩ := hall
  rcases h with h | h | h | h | h | h | h | h | h | h | h
  · obtain ⟨e, he, p, hp, hge⟩ := h
    exact absurd (c1 e he p hp) (Nat.not_lt.mpr hge)
  · obtain ⟨e, he, p, hp, hge⟩ := h
    exact absurd (c2 e he p hp) (Nat.not_lt.mpr hge)
  · obtain ⟨r, hr, hge⟩ := h
    rcases hge with hge | hge
    · exact absurd (c3 r hr).2 (Nat.not_lt.mpr hge)
    · exact absurd (c3 r hr).1 (Nat.not_lt.mpr hge)
  · obtain ⟨r, hr, hge⟩ := h
    rcases hge with hge | hge
    · exact absurd (c4 r hr).1.2 (Nat.not_lt.mpr hge)
    · exact absurd (c4 r hr).1.1 (Nat.not_lt.mpr hge)
  · obtain ⟨r, hr, hge⟩ := h
    rcases hge with hge | hge | hge
    · exact absurd (c5 r hr).2.2 (Nat.not_lt.mpr hge)
    · exact absurd (c5 r hr).2.1 (Nat.not_lt.mpr hge)
    · exact absurd (c5 r hr).1 (Nat.not_lt.mpr hge)
  · obtain ⟨r, hr, hge⟩ := h
    rcases hge with hge | hge
    · exact absurd (c6 r hr).2 (Nat.not_lt.mpr hge)
    · exact absurd (c6 r hr).1 (Nat.not_lt.mpr hge)
  · obtain ⟨m, hm, hge⟩ := h
    rcases hge with hge | ⟨e, he, hge⟩
    · exact absurd (c7 m hm).1 (Nat.not_lt.mpr hge)
    · exact absurd ((c7 m hm).2 e he) (Nat.not_lt.mpr hge)
  · obtain ⟨m, hm, hge⟩ := h
    rcases hge with ⟨e, he, hge⟩ | ⟨e, he, hge⟩
    · exact absurd ((c8 m hm).2 e he) (Nat.not_lt.mpr hge)
    · exact absurd ((c8 m hm).1 e he) (Nat.not_lt.mpr hge)
  · obtain ⟨d, hd, dj, hdj, e, he, p, hp, hge⟩ := h
    exact absurd (c9 d hd dj hdj e he p hp) (Nat.not_lt.mpr hge)
  · obtain ⟨b, hb, hge⟩ := h
    exact absurd (c10 b hb) (Nat.not_lt.mpr hge)
  · obtain ⟨b, hb, hge⟩ := h
    exact absurd (c11 b hb) (Nat.not_lt.mpr hge)

/-- Witness for the amended claim C1: a 1-variable model with a core
equation referencing variable 7 fails to compile with the validation
error. -/
theorem getMarabouQuery_validation_witness :
    HasOutOfRangeRef { Network.clear with
        numVars := 1
        equList := [⟨EqnType.eq, [(1, 7)], 0⟩] } ∧
    getMarabouQuery { Network.clear with
        numVars := 1
        equList := [⟨EqnType.eq, [(1, 7)], 0⟩] } = .error .assertionError :=
  ⟨by
    unfold HasOutOfRangeRef
    left
    exact ⟨⟨EqnType.eq, [(1, 7)], 0⟩, by decide, (1, 7), by decide, by decide⟩,
   getMarabouQuery_validation _ (by
    unfold HasOutOfRangeRef
    left
    exact ⟨⟨EqnType.eq, [(1, 7)], 0⟩, by decide, (1, 7), by decide, by decide⟩)⟩

/-- Claim C5: for every model state, `clearProperty` empties the lower-bound
map, the upper-bound map and the property-equation sequence, and leaves
`numVars`, the core equation sequence, every constraint-kind sequence and the
`inputVars`/`outputVars` groups unchanged. -/
theorem clearProperty_frame (net : Network) :
    (clearProperty net).lowerBounds = [] ∧
    (clearProperty net).upperBounds = [] ∧
    (clearProperty net).additionalEquList = [] ∧
    (clearProperty net).numVars = net.numVars ∧
    (clearProperty net).equList = net.equList ∧
    (clearProperty net).reluList = net.reluList ∧
    (clearProperty net).leakyReluList = net.leakyReluList ∧
    (clearProperty net).sigmoidList = net.sigmoidList ∧
    (clearProperty net).maxList = net.maxList ∧
    (clearProperty net).softmaxList = net.softmaxList ∧
    (clearProperty net).bilinearList = net.bilinearList ∧
    (clearProperty net).absList = net.absList ∧
    (clearProperty net).signList = net.signList ∧
    (clearProperty net).disjunctionList = net.disjunctionList ∧
    (clearProperty net).inputVars = net.inputVars ∧
    (clearProperty net).outputVars = net.outputVars :=
  ⟨rfl, rfl, rfl, rfl, rfl, rfl, rfl, rfl, rfl, rfl, rfl, rfl, rfl, rfl, rfl, rfl⟩

/-- Claim C7: `setLowerBound`/`setUpperBound` overwrite: for a variable `x`
with values `a` then `b` set in the same direction (on a model whose bound
maps have unique keys, the Python-dict invariant), the map in that direction
afterwards has exactly one entry for `x`, whose value is `b`, and the map in
the opposite direction is unchanged. -/
theorem setBound_overwrite (net : Network) (x : Var) (a b : ℚ)
    (hl : (net.lowerBounds.map Prod.fst).Nodup)
    (hu : (net.upperBounds.map Prod.fst).Nodup) :
    ((setLowerBound (setLowerBound net x a) x b).lowerBounds.countP
        (fun p => decide (p.1 = x)) = 1) ∧
    dictLookup (setLowerBound (setLowerBound net x a) x b).lowerBounds x = some b ∧
    (setLowerBound (setLowerBound net x a) x b).upperBounds = net.upperBounds ∧
    ((setUpperBound (setUpperBound net x a) x b).upperBounds.countP
        (fun p => decide (p.1 = x)) = 1) ∧
    dictLookup (setUpperBound (setUpperBound net x a) x b).upperBounds x = some b ∧
    (setUpperBound (setUpperBound net x a) x b).lowerBounds = net.lowerBounds := by
  refine ⟨?_, ?_, rfl, ?_, ?_, rfl⟩
  · exact dictInsert_countP _ x b (dictInsert_keys_nodup _ x a hl)
  · exact dictInsert_lookup _ x b
  · exact dictInsert_countP _ x b (dictInsert_keys_nodup _ x a hu)
  · exact dictInsert_lookup _ x b

/-- Witness for claim C7 at a concrete model: lower bound of variable 3 set
to 1 then to 2 leaves exactly one entry, of value 2. -/
theorem setBound_overwrite_witness :
    ((setLowerBound (setLowerBound { Network.clear with lowerBounds := [(3, 1)] } 3 1) 3 2).lowerBounds.countP
        (fun p => decide (p.1 = 3)) = 1) ∧
    dictLookup (setLowerBound (setLowerBound { Network.clear with lowerBounds := [(3, 1)] } 3 1) 3 2).lowerBounds 3 = some 2 ∧
    (setLowerBound (setLowerBound { Network.clear with lowerBounds := [(3, 1)] } 3 1) 3 2).upperBounds
      = ({ Network.clear with lowerBounds := [(3, 1)] } : Network).upperBounds ∧
    ((setUpperBound (setUpperBound { Network.clear with lowerBounds := [(3, 1)] } 3 1) 3 2).upperBounds.countP
        (fun p => decide (p.1 = 3)) = 1) ∧
    dictLookup (setUpperBound (setUpperBound { Network.clear with lowerBounds := [(3, 1)] } 3 1) 3 2).upperBounds 3 = some 2 ∧
    (setUpperBound (setUpperBound { Network.clear with lowerBounds := [(3, 1)] } 3 1) 3 2).lowerBounds
      = ({ Network.clear with lowerBounds := [(3, 1)] } : Network).lowerBounds :=
  setBound_overwrite { Network.clear with lowerBounds := [(3, 1)] } 3 1 2 (by decide) (by decide)

/-- Claim C6: compilation is deterministic and side-effect-free: a successful
`getMarabouQuery` call leaves the model state exactly as it was, and an
immediately repeated call on that state yields the identical compiled
query. -/
theorem getMarabouQuery_deterministic (net : Network) (q : IPQ) (n1 : Network)
    (h : getMarabouQueryS net = .ok (q, n1)) :
    n1 = net ∧
    getMarabouQueryS n1 = .ok (q, n1) ∧
    getMarabouQuery n1 = getMarabouQuery net ∧
    n1.numVars = net.numVars ∧
    n1.equList = net.equList ∧
    n1.additionalEquList = net.additionalEquList ∧
    n1.lowerBounds = net.lowerBounds ∧
    n1.upperBounds = net.upperBounds ∧
    n1.inputVars = net.inputVars ∧
    n1.outputVars = net.outputVars := by
  unfold getMarabouQueryS at h ⊢
  cases hq : getMarabouQuery net with
  | error e => rw [hq] at h; cases h
  | ok q' =>
    rw [hq] at h
    injection h with h'
    injection h' with h1 h2
    subst h2
    subst h1
    rw [hq]
    exact ⟨rfl, rfl, rfl, rfl, rfl, rfl, rfl, rfl, rfl, rfl⟩

/-- Witness for claim C6 at a concrete model: the empty network compiles to
the query that only sets the variable count, twice identically. -/
theorem getMarabouQuery_deterministic_witness :
    Network.clear = Network.clear ∧
    getMarabouQueryS Network.clear = .ok ([IPQCmd.setNumVars 0], Network.clear) ∧
    getMarabouQuery Network.clear = getMarabouQuery Network.clear ∧
    Network.clear.numVars = Network.clear.numVars ∧
    Network.clear.equList = Network.clear.equList ∧
    Network.clear.additionalEquList = Network.clear.additionalEquList ∧
    Network.clear.lowerBounds = Network.clear.lowerBounds ∧
    Network.clear.upperBounds = Network.clear.upperBounds ∧
    Network.clear.inputVars = Network.clear.inputVars ∧
    Network.clear.outputVars = Network.clear.outputVars :=
  getMarabouQuery_deterministic Network.clear [IPQCmd.setNumVars 0] Network.clear (by decide)

/-- Two networks identical except that the first holds a bilinear
constraint. -/
def bilinearOnlyNet : Network := { Network.clear with bilinearList := [(0, 1, 2)] }

/-- Two networks identical except for their output-variable arrays. -/
def outNetA : Network := { Network.clear with outputVars := [⟨[1], [0]⟩] }

/-- See `outNetA`. -/
def outNetB : Network := { Network.clear with outputVars := [⟨[1], [1]⟩] }

/-- Claim C4 fails on the code: `isEqualTo` never compares `bilinearList`
(nor `leakyReluList`, `softmaxList`, `additionalEquList`), and its
output-variable loop compares `outputVars1` against itself, so two models
differing only in the bilinear list — or only in their output arrays —
compare equal, contradicting the method's own contract of comparing "all
their attributes". -/
theorem isEqualTo_misses_components :
    isEqualTo bilinearOnlyNet Network.clear = true ∧
    bilinearOnlyNet.bilinearList ≠ Network.clear.bilinearList ∧
    isEqualTo outNetA outNetB = true ∧
    outNetA.outputVars ≠ outNetB.outputVars :=
  ⟨by decide, by decide, by decide, by decide⟩

/-- A single-input, single-output classifier skeleton with two output
classes (output variables 1 and 2), used for the robustness-search runs. -/
def robNet : Network :=
  { Network.clear with
    numVars := 4
    inputVars := [⟨[1, 1], [0]⟩]
    outputVars := [⟨[1, 2], [1, 2]⟩] }

/-- Claim C3 fails on the code: in targeted mode with `verbose = False`, a
satisfiable, non-timed-out query still reports no violating class, because
the source assigns `maxClass = targetClass` only under `if verbose:` —
contradicting the method's documented return contract (`maxClass`: the class
attaining the max, if SAT).  Concretely: one Max constraint is added, one
query issued, the solver returns a non-empty assignment without timeout, yet
`maxClass` is `None`. -/
theorem evaluateLocalRobustness_targeted_verbose_bug :
    (evaluateLocalRobustness (fun _ => ⟨[(0, 0)], false⟩) robNet ⟨[1], [0]⟩ 1 0 false
        (some 1)).map
      (fun o => (o.maxClass, o.vals.length, o.timedOut, o.trace.length,
        o.finalNet.maxList.length))
      = .ok (none, 1, false, 1, 1) := by
  decide

/-- The precondition checks of `evaluateLocalRobustness` that the source
performs before issuing any query: input-group count, input shape against
`self.inputVars[0][0]`, output-group count. -/
def robustnessPreconditionViolated (net : Network) (input : QArray) : Bool :=
  decide (net.inputVars.length ≠ 1) ||
  (match (net.inputVars.headD ⟨[], []⟩).firstSlice with
   | .error _ => true
   | .ok iv => decide (iv.shape ≠ input.shape)) ||
  decide (net.outputVars.length ≠ 1)

/-- A model whose single input group has shape `[1, 2]`. -/
def shapeNet : Network :=
  { Network.clear with
    numVars := 4
    inputVars := [⟨[1, 2], [0, 1]⟩]
    outputVars := [⟨[1, 2], [2, 3]⟩] }

/-- Counterexample to claim C8: an input of shape `[2]` differs from the
single input group's shape `[1, 2]`, yet `evaluateLocalRobustness` raises no
error — the source compares the input's shape against
`self.inputVars[0][0].shape` (the first slice along the leading axis), not
against the group's shape. -/
theorem evaluateLocalRobustness_shape_counterexample :
    shapeNet.inputVars.length = 1 ∧
    (⟨[2], [0, 0]⟩ : QArray).shape ≠ (shapeNet.inputVars.headD ⟨[], []⟩).shape ∧
    shapeNet.outputVars.length = 1 ∧
    (evaluateLocalRobustness (fun _ => ⟨[], false⟩) shapeNet ⟨[2], [0, 0]⟩ 1 0 true
        none).isOk = true :=
  ⟨by decide, by decide, by decide, by decide⟩

/-- Claim C8 as amended: `evaluateLocalRobustness` raises an error — and
issues no query (the result does not depend on the solver oracle) — whenever
the model has a number of input groups other than one, a number of output
groups other than one, or the given input's shape differs from the shape of
`inputVars[0][0]`, the first slice (along the leading axis) of the single
input group. -/
theorem evaluateLocalRobustness_preconditions (net : Network) (input : QArray)
    (h : robustnessPreconditionViolated net input = true) :
    ∃ err, ∀ (oracle : Network → SolveResult) (epsilon : ℚ) (originalClass : Nat)
      (verbose : Bool) (targetClass : Option Nat),
      evaluateLocalRobustness oracle net input epsilon originalClass verbose targetClass
        = .error err := by
  by_cases hlen : net.inputVars.length = 1
  case neg =>
    refine ⟨.notImplementedError, fun oracle ε oc vb tc => ?_⟩
    unfold evaluateLocalRobustness
    rw [if_pos hlen]
  case pos =>
  cases hs : (net.inputVars.headD ⟨[], []⟩).firstSlice with
  | error e =>
    refine ⟨e, fun oracle ε oc vb tc => ?_⟩
    unfold evaluateLocalRobustness
    rw [if_neg (fun hc => hc hlen)]
    simp only [hs]
  | ok iv =>
    by_cases hshape : iv.shape = input.shape
    case neg =>
      refine ⟨.runtimeError, fun oracle ε oc vb tc => ?_⟩
      unfold evaluateLocalRobustness
      rw [if_neg (fun hc => hc hlen)]
      simp only [hs]
      rw [if_pos hshape]
    case pos =>
    have hout : net.outputVars.length ≠ 1 := by
      unfold robustnessPreconditionViolated at h
      rw [hs] at h
      simp [hlen, hshape] at h
      exact h
    refine ⟨.notImplementedError, fun oracle ε oc vb tc => ?_⟩
    unfold evaluateLocalRobustness
    rw [if_neg (fun hc => hc hlen)]
    simp only [hs]
    rw [if_neg (not_not_intro hshape), if_pos hout]

/-- Witness for the amended claim C8 at a concrete model with two input
groups: the precondition check fires, and the call errors for a concrete
oracle/argument choice too. -/
theorem evaluateLocalRobustness_preconditions_witness :
    robustnessPreconditionViolated
      { Network.clear with inputVars := [⟨[1], [0]⟩, ⟨[1], [1]⟩] } (⟨[1], [0]⟩ : QArray)
      = true ∧
    ∃ err, ∀ (oracle : Network → SolveResult) (epsilon : ℚ) (originalClass : Nat)
      (verbose : Bool) (targetClass : Option Nat),
      evaluateLocalRobustness oracle
        { Network.clear with inputVars := [⟨[1], [0]⟩, ⟨[1], [1]⟩] } (⟨[1], [0]⟩ : QArray)
        epsilon originalClass verbose targetClass = .error err :=
  ⟨by decide,
   evaluateLocalRobustness_preconditions
     { Network.clear with inputVars := [⟨[1], [0]⟩, ⟨[1], [1]⟩] } (⟨[1], [0]⟩ : QArray)
     (by decide)⟩

/-- Reference description of a full untargeted run (claim C2), phrased on
the returned outcome: candidates are tried in ascending order, one query
each, forming a prefix of the candidate list; all queries before the last
were unsatisfiable without timeout; a timed-out last query stops the search
with no violating class; a satisfiable last query reports that candidate;
an unsatisfiable last query means every candidate was tried and none
reported. -/
def UntargetedRunSpec (cands : List Nat) (out : RobustnessOutcome) : Prop :=
  out.trace.map Prod.fst = cands.take out.trace.length ∧
  out.trace ≠ [] ∧
  (out.trace.map Prod.fst).Pairwise (fun a b => a < b) ∧
  (∀ e ∈ out.trace.dropLast, e.2.timedOut = false ∧ e.2.vals = []) ∧
  (∀ e, out.trace.getLast? = some e →
    out.vals = e.2.vals ∧ out.timedOut = e.2.timedOut ∧
    (e.2.timedOut = true → out.maxClass = none) ∧
    (e.2.timedOut = false → e.2.vals ≠ [] → out.maxClass = some e.1) ∧
    (e.2.timedOut = false → e.2.vals = [] →
      out.maxClass = none ∧ out.trace.length = cands.length))

/-- Claim C2: in untargeted mode, on a well-formed single-input,
single-output model with `n` output classes and at least one candidate
class, `evaluateLocalRobustness` tries candidates `≠ originalClass` in
strictly ascending index order, one query per candidate; it stops at the
first satisfiable candidate and reports it, stops immediately on a reported
timeout without reporting a class, and reports no violating class when every
candidate's query is unsatisfiable. -/
theorem evaluateLocalRobustness_untargeted (oracle : Network → SolveResult)
    (net : Network) (ig iv og ov : VArray) (input : QArray) (epsilon : ℚ)
    (originalClass : Nat) (verbose : Bool) (n : Nat) (v0 : Var)
    (h1 : net.inputVars = [ig]) (h2 : ig.firstSlice = .ok iv)
    (h3 : iv.shape = input.shape)
    (h4 : net.outputVars = [og]) (h5 : og.firstSlice = .ok ov)
    (h6 : ov.shape = [n]) (h7 : ov.data.head? = some v0)
    (h8 : ∃ i, i < n ∧ i ≠ originalClass) :
    ∃ out, evaluateLocalRobustness oracle net input epsilon originalClass verbose none
        = .ok out ∧
      UntargetedRunSpec ((List.range n).filter (fun i => decide (i ≠ originalClass))) out := by
  unfold evaluateLocalRobustness
  have hn1 : ¬ (net.inputVars.length ≠ 1) := by
    rw [h1]
    exact fun hc => hc rfl
  rw [if_neg hn1, h1]
  simp only [List.headD_cons, h2]
  rw [if_neg (fun hc => hc h3)]
  have hno : ¬ (net.outputVars.length ≠ 1) := by
    rw [h4]
    exact fun hc => hc rfl
  rw [if_neg hno]
  have hpout : (pinBounds net iv.flatten input.data epsilon).outputVars = [og] := by
    rw [pinBounds_outputVars, h4]
  simp only [hpout, List.headD_cons, h5, h7, h6]
  obtain ⟨s1, s2, s3, s4⟩ :=
    untargetedLoop_spec oracle v0 originalClass (List.range n)
      (pinBounds net iv.flatten input.data epsilon)
  have hcne : (List.range n).filter (fun i => decide (i ≠ originalClass)) ≠ [] := by
    obtain ⟨i, hi, hine⟩ := h8
    intro hemp
    have hmem : i ∈ (List.range n).filter (fun i => decide (i ≠ originalClass)) := by
      rw [List.mem_filter]
      exact ⟨List.mem_range.mpr hi, by simpa using hine⟩
    rw [hemp] at hmem
    simp at hmem
  have htrne :
      (untargetedLoop oracle v0 originalClass (pinBounds net iv.flatten input.data epsilon)
        (List.range n)).2.1 ≠ [] :=
    fun hemp => hcne (s3 hemp).2
  obtain ⟨e, hlast⟩ := Option.isSome_iff_exists.mp (List.getLast?_isSome.mpr htrne)
  simp only [hlast]
  refine ⟨_, rfl, s1, htrne, ?_, s2, ?_⟩
  · rw [s1]
    exact List.Pairwise.sublist (List.take_sublist _ _)
      (List.Pairwise.sublist (List.filter_sublist _) (List.pairwise_lt_range n))
  · intro e' he'
    rw [hlast] at he'
    injection he' with he'
    subst he'
    have hs4 := s4 e hlast
    exact ⟨rfl, rfl, hs4.1, hs4.2.1,
      fun hf hv => ⟨(hs4.2.2 hf hv).1, (hs4.2.2 hf hv).2⟩⟩

/-- Witness for claim C2: the two-class model `robNet`, original class 0,
with an oracle answering unsatisfiable-without-timeout everywhere. -/
theorem evaluateLocalRobustness_untargeted_witness :
    ∃ out, evaluateLocalRobustness (fun _ => ⟨[], false⟩) robNet ⟨[1], [0]⟩ 1 0 true none
        = .ok out ∧
      UntargetedRunSpec ((List.range 2).filter (fun i => decide (i ≠ 0))) out :=
  evaluateLocalRobustness_untargeted (fun _ => ⟨[], false⟩) robNet
    ⟨[1, 1], [0]⟩ ⟨[1], [0]⟩ ⟨[1, 2], [1, 2]⟩ ⟨[2], [1, 2]⟩ ⟨[1], [0]⟩ 1 0 true 2 1
    (by decide) (by decide) (by decide) (by decide) (by decide) (by decide) (by decide)
    ⟨1, by decide⟩

lemma mapM_ok_of_forall {α β : Type} (f : α → Except MarabouError β) (g : α → β) :
    ∀ (l : List α), (∀ x ∈ l, f x = .ok (g x)) → l.mapM f = .ok (l.map g) := by
  intro l
  induction l with
  | nil => intro _; rfl
  | cons x xs ih =>
    intro h
    rw [List.mapM_cons, h x (List.mem_cons_self x xs),
      ih (fun y hy => h y (List.mem_cons_of_mem x hy))]
    rfl

/-- Claim C9: given that the solver-based evaluation succeeds with output
groups `ms`, `findError` fails with the propagated assertion error whenever
the reference evaluator reports a different number of output groups, and
otherwise (same count, matching shapes) returns the per-group elementwise
absolute difference of the two evaluations. -/
lemma findError_eq (oracle : IPQ → SolveResult) (refEval : List QArray → List QArray)
    (net : Network) (inputValues : List QArray) (ms : List QArray)
    (hm : evaluateWithMarabou oracle net inputValues = .ok (some ms)) :
    findError oracle refEval net inputValues
      = if ms.length = (refEval inputValues).length then
          absDiffList ms (refEval inputValues)
        else .error .assertionError := by
  unfold findError evaluate
  rw [if_pos rfl, hm, if_neg Bool.false_ne_true]

theorem findError_spec (oracle : IPQ → SolveResult) (refEval : List QArray → List QArray)
    (net : Network) (inputValues : List QArray) (ms : List QArray)
    (hm : evaluateWithMarabou oracle net inputValues = .ok (some ms)) :
    ((refEval inputValues).length ≠ ms.length →
      findError oracle refEval net inputValues = .error .assertionError) ∧
    ((refEval inputValues).length = ms.length →
      (∀ p ∈ ms.zip (refEval inputValues), p.1.shape = p.2.shape) →
      findError oracle refEval net inputValues
        = .ok ((ms.zip (refEval inputValues)).map
            (fun p => ⟨p.1.shape, (p.1.data.zip p.2.data).map (fun q => |q.1 - q.2|)⟩))) := by
  constructor
  · intro hlen
    rw [findError_eq oracle refEval net inputValues ms hm,
      if_neg (fun heq => hlen heq.symm)]
  · intro hlen hshape
    rw [findError_eq oracle refEval net inputValues ms hm, if_pos hlen.symm]
    unfold absDiffList
    apply mapM_ok_of_forall
    intro p hp
    unfold absDiff
    rw [if_pos (hshape p hp)]

/-- A one-input, one-output identity-style skeleton used by the
evaluation-bridge runs. -/
def bridgeNet : Network :=
  { Network.clear with
    numVars := 2
    inputVars := [⟨[1], [0]⟩]
    outputVars := [⟨[1], [1]⟩] }

/-- Witness for claim C9 on `bridgeNet`: the solver assigns output value 4,
the reference evaluator reports 6 in one group of the same shape. -/
theorem findError_spec_witness :
    (((fun _ => [(⟨[1], [6]⟩ : QArray)]) [(⟨[1], [5]⟩ : QArray)]).length ≠
        [(⟨[1], [4]⟩ : QArray)].length →
      findError (fun _ => ⟨[(0, 3), (1, 4)], false⟩) (fun _ => [⟨[1], [6]⟩]) bridgeNet
          [⟨[1], [5]⟩] = .error .assertionError) ∧
    (((fun _ => [(⟨[1], [6]⟩ : QArray)]) [(⟨[1], [5]⟩ : QArray)]).length =
        [(⟨[1], [4]⟩ : QArray)].length →
      (∀ p ∈ [(⟨[1], [4]⟩ : QArray)].zip
          ((fun _ => [(⟨[1], [6]⟩ : QArray)]) [(⟨[1], [5]⟩ : QArray)]),
        p.1.shape = p.2.shape) →
      findError (fun _ => ⟨[(0, 3), (1, 4)], false⟩) (fun _ => [⟨[1], [6]⟩]) bridgeNet
          [⟨[1], [5]⟩]
        = .ok (([(⟨[1], [4]⟩ : QArray)].zip
              ((fun _ => [(⟨[1], [6]⟩ : QArray)]) [(⟨[1], [5]⟩ : QArray)])).map
            (fun p => ⟨p.1.shape, (p.1.data.zip p.2.data).map (fun q => |q.1 - q.2|)⟩))) :=
  findError_spec (fun _ => ⟨[(0, 3), (1, 4)], false⟩) (fun _ => [⟨[1], [6]⟩]) bridgeNet
    [⟨[1], [5]⟩] [⟨[1], [4]⟩] (by decide)

/-- Claim C10: a successful `evaluateWithMarabou` call leaves the model
completely unchanged — the input-pinning bounds go onto the freshly
compiled query (`base ++ pinCmds …`), never onto the model — and it returns
the absent-value signal (`none`) exactly when the solver's assignment is
empty. -/
theorem evaluateWithMarabou_pure (oracle : IPQ → SolveResult) (net : Network)
    (inputValues : List QArray) (out : Option (List QArray)) (net' : Network)
    (h : evaluateWithMarabouS oracle net inputValues = .ok (out, net')) :
    net' = net ∧
    net'.lowerBounds = net.lowerBounds ∧
    net'.upperBounds = net.upperBounds ∧
    net'.equList = net.equList ∧
    net'.additionalEquList = net.additionalEquList ∧
    net'.numVars = net.numVars ∧
    net'.reluList = net.reluList ∧
    net'.leakyReluList = net.leakyReluList ∧
    net'.sigmoidList = net.sigmoidList ∧
    net'.maxList = net.maxList ∧
    net'.softmaxList = net.softmaxList ∧
    net'.bilinearList = net.bilinearList ∧
    net'.absList = net.absList ∧
    net'.signList = net.signList ∧
    net'.disjunctionList = net.disjunctionList ∧
    net'.inputVars = net.inputVars ∧
    net'.outputVars = net.outputVars ∧
    ∃ base, getMarabouQuery net = .ok base ∧
      (out = none ↔ (oracle (base ++ pinCmds (inputDictOf net inputValues))).vals = []) := by
  unfold evaluateWithMarabouS at h
  cases hev : evaluateWithMarabou oracle net inputValues with
  | error e =>
    rw [hev] at h
    cases h
  | ok r =>
    rw [hev] at h
    injection h with h'
    rw [Prod.mk.injEq] at h'
    obtain ⟨ho, hn⟩ := h'
    subst ho
    subst hn
    refine ⟨rfl, rfl, rfl, rfl, rfl, rfl, rfl, rfl, rfl, rfl, rfl, rfl, rfl, rfl, rfl,
      rfl, rfl, ?_⟩
    unfold evaluateWithMarabou at hev
    cases hpq : pinnedQuery net inputValues with
    | error e =>
      rw [hpq] at hev
      cases hev
    | ok ipq =>
      simp only [hpq] at hev
      unfold pinnedQuery at hpq
      by_cases hie : net.inputVars.isEmpty = true
      · rw [if_pos hie] at hpq
        cases hpq
      · rw [if_neg hie] at hpq
        by_cases hve : inputValues.isEmpty = true
        · rw [if_pos hve] at hpq
          cases hpq
        · rw [if_neg hve] at hpq
          cases hbase : getMarabouQuery net with
          | error e =>
            rw [hbase] at hpq
            cases hpq
          | ok base =>
            rw [hbase] at hpq
            injection hpq with hipq
            refine ⟨base, rfl, ?_⟩
            rw [hipq]
            constructor
            · intro hnone
              by_cases hemp : (oracle ipq).vals.isEmpty = true
              · exact List.isEmpty_iff.mp hemp
              · rw [if_neg hemp] at hev
                cases hmap : net.outputVars.mapM (readOutputs (oracle ipq).vals) with
                | error e2 =>
                  simp only [hmap] at hev
                  cases hev
                | ok outs =>
                  simp only [hmap] at hev
                  injection hev with hr
                  rw [← hr] at hnone
                  cases hnone
            · intro hempty
              rw [if_pos (List.isEmpty_iff.mpr hempty)] at hev
              injection hev with hr
              exact hr.symm

/-- Witness for claim C10 on `bridgeNet` with an unsatisfiable solve: the
model is untouched and the absent-value signal is returned. -/
theorem evaluateWithMarabou_pure_witness :
    bridgeNet = bridgeNet ∧
    bridgeNet.lowerBounds = bridgeNet.lowerBounds ∧
    bridgeNet.upperBounds = bridgeNet.upperBounds ∧
    bridgeNet.equList = bridgeNet.equList ∧
    bridgeNet.additionalEquList = bridgeNet.additionalEquList ∧
    bridgeNet.numVars = bridgeNet.numVars ∧
    bridgeNet.reluList = bridgeNet.reluList ∧
    bridgeNet.leakyReluList = bridgeNet.leakyReluList ∧
    bridgeNet.sigmoidList = bridgeNet.sigmoidList ∧
    bridgeNet.maxList = bridgeNet.maxList ∧
    bridgeNet.softmaxList = bridgeNet.softmaxList ∧
    bridgeNet.bilinearList = bridgeNet.bilinearList ∧
    bridgeNet.absList = bridgeNet.absList ∧
    bridgeNet.signList = bridgeNet.signList ∧
    bridgeNet.disjunctionList = bridgeNet.disjunctionList ∧
    bridgeNet.inputVars = bridgeNet.inputVars ∧
    bridgeNet.outputVars = bridgeNet.outputVars ∧
    ∃ base, getMarabouQuery bridgeNet = .ok base ∧
      ((none : Option (List QArray)) = none ↔
        (((fun _ => ⟨[], false⟩) : IPQ → SolveResult)
            (base ++ pinCmds (inputDictOf bridgeNet [⟨[1], [5]⟩]))).vals = []) :=
  evaluateWithMarabou_pure (fun _ => ⟨[], false⟩) bridgeNet [⟨[1], [5]⟩] none bridgeNet
    (by decide)

end Marabou
